import Mathlib

/-!
Verification of the structured-output helpers of
`static/blog/context-engineering-deep-dive-part-1-user-intent-prompting/code/6_structured_output.py`
and of the error-handling shape of the example loops of the demonstration
scripts of the same directory.

Python strings are modelled as `List Char`.  The hosted completion call
(`litellm.completion`) is external to the repository; it is modelled as an
oracle `Nat → CompletionResult` giving, for each attempt index, either the
text content of the response or a request-level failure (an exception that
is neither `json.JSONDecodeError` nor `ValueError`).
-/

/-- Python strings are modelled as lists of characters. -/
abbrev Str := List Char

/-- Backtick character (code point 96), written by code point. -/
def btChar : Char := Char.ofNat 96

/-- Opening curly brace character (code point 123). -/
def lbraceChar : Char := Char.ofNat 123

/-- Closing curly brace character (code point 125). -/
def rbraceChar : Char := Char.ofNat 125

/-- Whitespace recognised by Python's `str.strip` on the ASCII range
(space, tab, newline, carriage return, vertical tab, form feed). -/
def isPySpace (c : Char) : Bool :=
  [' ', '\t', '\n', '\r', Char.ofNat 11, Char.ofNat 12].contains c

/-- Model of Python `str.strip()`: drop leading and trailing whitespace. -/
def pyStrip (s : Str) : Str :=
  ((s.dropWhile isPySpace).reverse.dropWhile isPySpace).reverse

/-- Fueled worker for `pyReplace`.  Scans left to right; at each position,
if the (nonempty) pattern matches, it is replaced and scanning resumes after
the match (Python's leftmost, non-overlapping, global replacement).  The
fuel only needs to cover the length of the string. -/
def replaceAllF (pat rep : Str) : Nat → Str → Str
  | _, [] => []
  | 0, s => s
  | fuel + 1, c :: rest =>
    if pat ≠ [] ∧ pat.isPrefixOf (c :: rest) then
      rep ++ replaceAllF pat rep fuel ((c :: rest).drop pat.length)
    else
      c :: replaceAllF pat rep fuel rest

/-- Model of Python `s.replace(pat, rep)` for a nonempty pattern. -/
def pyReplace (s pat rep : Str) : Str :=
  replaceAllF pat rep s.length s

/-- The plain code-fence marker. -/
def fenceTicks : Str := "```".toList

/-- The JSON-tagged code-fence marker. -/
def fenceJson : Str := "```json".toList

/-- Model of lines 92-100 of `6_structured_output.py`: the response content is
stripped, and then common Markdown code-fence formatting is removed with
global `str.replace` calls guarded by `str.startswith` checks. -/
def cleanResultText (content : Str) : Str :=
  let t := pyStrip content
  if fenceJson.isPrefixOf t then
    pyStrip (pyReplace (pyReplace t fenceJson []) fenceTicks [])
  else if fenceTicks.isPrefixOf t then
    pyStrip (pyReplace t fenceTicks [])
  else
    t

/-- Parsed JSON values, as produced by `json.loads`.  Numbers are kept as
their lexemes: no claim inspects numeric values, and Python would build
`int`/`float` objects out of the same lexemes. -/
inductive JsonValue where
  | null
  | bool (b : Bool)
  | num (lexeme : Str)
  | str (s : Str)
  | arr (elems : List JsonValue)
  | obj (members : List (Str × JsonValue))

/-- Whitespace skipped between JSON tokens by `json.loads`. -/
def isJsonWs (c : Char) : Bool :=
  [' ', '\t', '\n', '\r'].contains c

/-- Skip inter-token whitespace. -/
def skipWs (s : Str) : Str := s.dropWhile isJsonWs

/-- JSON string escapes handled by the model (the `\uXXXX` form of
`json.loads` is outside the modelled subset; no claim exercises it). -/
def escapeChar : Char → Option Char
  | '"' => some '"'
  | '\\' => some '\\'
  | '/' => some '/'
  | 'b' => some (Char.ofNat 8)
  | 'f' => some (Char.ofNat 12)
  | 'n' => some '\n'
  | 'r' => some '\r'
  | 't' => some '\t'
  | _ => none

/-- Parse the body of a JSON string after the opening quote; returns the
decoded characters and the remaining input after the closing quote.
Control characters below code 32 are rejected, as in strict `json.loads`. -/
def parseStringBody : Str → Option (Str × Str)
  | [] => none
  | c :: rest =>
    if c = '"' then some ([], rest)
    else if c = '\\' then
      match rest with
      | [] => none
      | e :: rest2 =>
        match escapeChar e with
        | none => none
        | some ec =>
          match parseStringBody rest2 with
          | none => none
          | some (cs, rem) => some (ec :: cs, rem)
    else if c.toNat < 32 then none
    else
      match parseStringBody rest with
      | none => none
      | some (cs, rem) => some (c :: cs, rem)

/-- Parse a JSON number lexeme (`-?(0|[1-9][0-9]*)(\.[0-9]+)?([eE][+-]?[0-9]+)?`),
returning the lexeme and the remaining input. -/
def parseNumberLexeme (s : Str) : Option (Str × Str) :=
  let signSplit : Str × Str :=
    match s with
    | c :: r => if c = '-' then ([c], r) else ([], s)
    | [] => ([], s)
  let sign := signSplit.1
  let s1 := signSplit.2
  match s1 with
  | [] => none
  | c :: r =>
    if ¬ c.isDigit then none
    else
      let ipSplit : Str × Str :=
        if c = '0' then ([c], r)
        else (s1.takeWhile Char.isDigit, s1.dropWhile Char.isDigit)
      let ip := ipSplit.1
      let s2 := ipSplit.2
      let fracRes : Option (Str × Str) :=
        match s2 with
        | d :: r2 =>
          if d = '.' then
            let ds := r2.takeWhile Char.isDigit
            if ds = [] then none else some (d :: ds, r2.dropWhile Char.isDigit)
          else some ([], s2)
        | [] => some ([], s2)
      match fracRes with
      | none => none
      | some (fp, s3) =>
        let expRes : Option (Str × Str) :=
          match s3 with
          | e :: r3 =>
            if e = 'e' ∨ e = 'E' then
              let sgnSplit : Str × Str :=
                match r3 with
                | a :: r4 => if a = '+' ∨ a = '-' then ([a], r4) else ([], r3)
                | [] => ([], r3)
              let ds := sgnSplit.2.takeWhile Char.isDigit
              if ds = [] then none
              else some (e :: (sgnSplit.1 ++ ds), sgnSplit.2.dropWhile Char.isDigit)
            else some ([], s3)
          | [] => some ([], s3)
        match expRes with
        | none => none
        | some (ep, s4) => some (sign ++ ip ++ fp ++ ep, s4)

/-- Parsing modes of the recursive-descent scanner: a single value, the
members of an object after its opening brace, or the elements of an array
after its opening bracket. -/
inductive PMode where
  | value
  | members
  | elems

/-- Fueled recursive-descent parser for the `json.loads` subset used by the
scripts.  In `members` mode the result is wrapped as `JsonValue.obj`, in
`elems` mode as `JsonValue.arr`.  Fuel at least `length + 1` suffices, since
every unit of fuel spent is preceded by consuming at least one character. -/
def parseF : Nat → PMode → Str → Option (JsonValue × Str)
  | 0, _, _ => none
  | fuel + 1, PMode.value, s =>
    match skipWs s with
    | [] => none
    | c :: r =>
      if c = '"' then
        match parseStringBody r with
        | none => none
        | some (cs, rem) => some (JsonValue.str cs, rem)
      else if c = lbraceChar then
        match skipWs r with
        | [] => none
        | c2 :: r2 =>
          if c2 = rbraceChar then some (JsonValue.obj [], r2)
          else parseF fuel PMode.members (skipWs r)
      else if c = '[' then
        match skipWs r with
        | [] => none
        | c2 :: r2 =>
          if c2 = ']' then some (JsonValue.arr [], r2)
          else parseF fuel PMode.elems (skipWs r)
      else if "null".toList.isPrefixOf (c :: r) then some (JsonValue.null, (c :: r).drop 4)
      else if "true".toList.isPrefixOf (c :: r) then some (JsonValue.bool true, (c :: r).drop 4)
      else if "false".toList.isPrefixOf (c :: r) then some (JsonValue.bool false, (c :: r).drop 5)
      else
        match parseNumberLexeme (c :: r) with
        | none => none
        | some (lex, rem) => some (JsonValue.num lex, rem)
  | fuel + 1, PMode.members, s =>
    match s with
    | [] => none
    | c :: r =>
      if c = '"' then
        match parseStringBody r with
        | none => none
        | some (key, r2) =>
          match skipWs r2 with
          | [] => none
          | c2 :: r3 =>
            if c2 = ':' then
              match parseF fuel PMode.value r3 with
              | none => none
              | some (v, r4) =>
                match skipWs r4 with
                | [] => none
                | c3 :: r5 =>
                  if c3 = ',' then
                    match parseF fuel PMode.members (skipWs r5) with
                    | some (JsonValue.obj kvs, rem) => some (JsonValue.obj ((key, v) :: kvs), rem)
                    | _ => none
                  else if c3 = rbraceChar then some (JsonValue.obj [(key, v)], r5)
                  else none
            else none
      else none
  | fuel + 1, PMode.elems, s =>
    match parseF fuel PMode.value s with
    | none => none
    | some (v, r) =>
      match skipWs r with
      | [] => none
      | c :: r2 =>
        if c = ',' then
          match parseF fuel PMode.elems (skipWs r2) with
          | some (JsonValue.arr xs, rem) => some (JsonValue.arr (v :: xs), rem)
          | _ => none
        else if c = ']' then some (JsonValue.arr [v], r2)
        else none

/-- Model of `json.loads`: parse one value and require that only whitespace
follows it; any failure models a raised `json.JSONDecodeError`. -/
def jsonLoads (s : Str) : Option JsonValue :=
  match parseF (s.length + 1) PMode.value s with
  | none => none
  | some (v, rest) => if skipWs rest = [] then some v else none

/-- A schema is a Python dict from field name to description value; iterating
it (as `validate_schema` does) yields its keys. -/
abbrev Schema := List (Str × JsonValue)

/-- Model of `validate_schema` (lines 125-132): the parsed value must be a
dict and every schema key must be present in it; value types are not
inspected. -/
def validate_schema (data : JsonValue) (schema : Schema) : Bool :=
  match data with
  | JsonValue.obj kvs => schema.all fun p => kvs.any fun q => decide (q.1 = p.1)
  | _ => false

/-- Repeated spaces, for `json.dumps` indentation. -/
def spacesN (n : Nat) : Str := List.replicate n ' '

/-- Escaping of one character inside a dumped JSON string (ASCII subset of
`json.dumps`; the schemas dumped by the scripts are plain ASCII). -/
def dumpsEscapeChar (c : Char) : Str :=
  if c = '"' then "\\\"".toList
  else if c = '\\' then "\\\\".toList
  else if c = '\n' then "\\n".toList
  else if c = '\t' then "\\t".toList
  else if c = '\r' then "\\r".toList
  else [c]

/-- Escape a whole string for dumping. -/
def dumpsEscape (s : Str) : Str :=
  s.foldr (fun c acc => dumpsEscapeChar c ++ acc) []

mutual

/-- Model of `json.dumps(v, indent=2)` at indentation level `ind`. -/
def dumpsValue : JsonValue → Nat → Str
  | JsonValue.null, _ => "null".toList
  | JsonValue.bool b, _ => if b then "true".toList else "false".toList
  | JsonValue.num lex, _ => lex
  | JsonValue.str s, _ => '"' :: (dumpsEscape s ++ ['"'])
  | JsonValue.arr xs, ind =>
    match xs with
    | [] => "[]".toList
    | x :: rest =>
      "[\n".toList ++ dumpsArrItems (x :: rest) (ind + 1) ++ '\n' :: (spacesN (2 * ind) ++ "]".toList)
  | JsonValue.obj kvs, ind =>
    match kvs with
    | [] => "\x7b\x7d".toList
    | m :: rest =>
      "\x7b\n".toList ++ dumpsObjItems (m :: rest) (ind + 1) ++ '\n' :: (spacesN (2 * ind) ++ "\x7d".toList)

/-- Dump the comma-separated, indented items of an array. -/
def dumpsArrItems : List JsonValue → Nat → Str
  | [], _ => []
  | [x], ind => spacesN (2 * ind) ++ dumpsValue x ind
  | x :: y :: rest, ind =>
    spacesN (2 * ind) ++ dumpsValue x ind ++ ",\n".toList ++ dumpsArrItems (y :: rest) ind

/-- Dump the comma-separated, indented members of an object. -/
def dumpsObjItems : List (Str × JsonValue) → Nat → Str
  | [], _ => []
  | [(k, v)], ind =>
    spacesN (2 * ind) ++ ('"' :: (dumpsEscape k ++ ['"'])) ++ ": ".toList ++ dumpsValue v ind
  | (k, v) :: m :: rest, ind =>
    spacesN (2 * ind) ++ ('"' :: (dumpsEscape k ++ ['"'])) ++ ": ".toList ++ dumpsValue v ind
      ++ ",\n".toList ++ dumpsObjItems (m :: rest) ind

end

/-- Model of `json.dumps(schema, indent=2)` for a schema dict. -/
def pyJsonDumps (schema : Schema) : Str :=
  dumpsValue (JsonValue.obj schema) 0

/-- The `json_prompt` f-string built by `enforce_json_output`
(lines 60-73 of `6_structured_output.py`). -/
def initialJsonPrompt (prompt : Str) (output_schema : Schema) : Str :=
  "\n        ".toList ++ prompt
    ++ "\n\n        CRITICAL: Return ONLY valid JSON matching this exact schema:\n        ".toList
    ++ pyJsonDumps output_schema
    ++ "\n\n        Rules:\n        - NO explanatory text\n        - NO markdown formatting\n        - NO code blocks\n        - ONLY the JSON object\n        - ALL required fields must be present\n        ".toList

/-- The corrective note appended to `json_prompt` after the failed attempt
with 0-based index `attempt` (line 118 of `6_structured_output.py`). -/
def retryNote (attempt : Nat) : Str :=
  "\n\nATTEMPT ".toList ++ (Nat.repr (attempt + 2)).toList
    ++ ": Previous attempt failed. Return ONLY valid JSON.".toList

/-- Outcome of one completion call: the text content of the response, or a
request-level failure (an exception other than `json.JSONDecodeError` and
`ValueError`, e.g. a network error). -/
inductive CompletionResult where
  | ok (content : Str)
  | failure (msg : Str)

/-- Observable outcome of `enforce_json_output`. -/
inductive EnforceOutcome where
  | returned (v : JsonValue)
  /-- the `Exception` raised at line 113 after the last attempt fails -/
  | raisedCeiling
  /-- a completion failure propagating uncaught through the `except` clause -/
  | raisedCompletion (msg : Str)
  /-- the `return None` fall-through after the loop (only when `max_retries = 0`) -/
  | returnedNone

/-- Body of one iteration of the retry loop (lines 92-109): clean the
response text, parse it, and validate it against the schema.  `none` encodes
the caught `json.JSONDecodeError` (parse failure) or `ValueError` (schema
validation failure). -/
def attemptOnce (schema : Schema) (content : Str) : Option JsonValue :=
  match jsonLoads (cleanResultText content) with
  | none => none
  | some parsed => if validate_schema parsed schema then some parsed else none

/-- The retry loop of `enforce_json_output` (lines 80-120), unrolled over the
remaining iteration count of `for attempt in range(max_retries)`.  Returns
the list of `json_prompt` values sent to `completion`, one per attempt made,
together with the outcome. -/
def enforceLoop (schema : Schema) (responses : Nat → CompletionResult) (maxRetries : Nat) :
    Nat → Nat → Str → List Str × EnforceOutcome
  | 0, _, _ => ([], EnforceOutcome.returnedNone)
  | remaining + 1, attempt, jsonPrompt =>
    match responses attempt with
    | CompletionResult.failure msg => ([jsonPrompt], EnforceOutcome.raisedCompletion msg)
    | CompletionResult.ok content =>
      match attemptOnce schema content with
      | some parsed => ([jsonPrompt], EnforceOutcome.returned parsed)
      | none =>
        if attempt = maxRetries - 1 then ([jsonPrompt], EnforceOutcome.raisedCeiling)
        else
          let rest := enforceLoop schema responses maxRetries remaining (attempt + 1)
            (jsonPrompt ++ retryNote attempt)
          (jsonPrompt :: rest.1, rest.2)

/-- Model of `enforce_json_output` (lines 59-120): build the initial
`json_prompt` and run the bounded retry loop. -/
def enforce_json_output (output_schema : Schema) (max_retries : Nat)
    (responses : Nat → CompletionResult) (prompt : Str) : List Str × EnforceOutcome :=
  enforceLoop output_schema responses max_retries max_retries 0
    (initialJsonPrompt prompt output_schema)

/-- Model of `create_json_enforcer` (lines 56-122): returns the enforcer
closure over the captured schema and retry ceiling. -/
def create_json_enforcer (output_schema : Schema) (max_retries : Nat) :
    (Nat → CompletionResult) → Str → List Str × EnforceOutcome :=
  enforce_json_output output_schema max_retries

/-- Observable outcome of `extract_structured_data`. -/
inductive ExtractOutcome where
  | returned (v : JsonValue)
  /-- an uncaught `json.JSONDecodeError` from the single `json.loads` call -/
  | raisedJSONDecodeError
  /-- a completion failure propagating out of the single request -/
  | raisedCompletion (msg : Str)

/-- The `format_prompt` f-string of `extract_structured_data` (lines 27-37). -/
def formatPromptExtract (text : Str) (schema : Schema) : Str :=
  "\n    Extract information and return ONLY valid JSON matching this schema:\n\n    Schema: ".toList
    ++ pyJsonDumps schema
    ++ "\n\n    Text: ".toList ++ text
    ++ "\n\n    Rules:\n    - Return ONLY the JSON object, no explanation\n    - Use null for missing values\n    - Validate types match the schema\n    ".toList

/-- Model of `extract_structured_data` (lines 24-53): one completion call,
then `json.loads` on the raw content — no fence cleaning, no retry, no
schema validation.  The first component is the list of prompts sent. -/
def extract_structured_data (responses : Nat → CompletionResult) (text : Str)
    (schema : Schema) : List Str × ExtractOutcome :=
  ([formatPromptExtract text schema],
    match responses 0 with
    | CompletionResult.failure msg => ExtractOutcome.raisedCompletion msg
    | CompletionResult.ok content =>
      match jsonLoads content with
      | none => ExtractOutcome.raisedJSONDecodeError
      | some v => ExtractOutcome.returned v)

/-- What happened with one example of a demonstration loop. -/
inductive ExampleResult where
  /-- the request succeeded and the output was printed -/
  | completed (output : Str)
  /-- the request raised, the exception was caught and `Error: ...` printed -/
  | errorPrinted (msg : Str)

/-- Common shape of the demonstration example loops: iterate over the
examples; each iteration issues a request that either yields output or
raises.  If the loop body wraps the request in `try/except` (`catches`),
a raised failure is printed and the loop continues; otherwise the exception
propagates, aborting the remaining examples.  Returns the processed examples
and the uncaught exception, if any. -/
def runExampleLoop (catches : Bool) : List (Except Str Str) → List ExampleResult × Option Str
  | [] => ([], none)
  | Except.ok o :: rest =>
    let r := runExampleLoop catches rest
    (ExampleResult.completed o :: r.1, r.2)
  | Except.error e :: rest =>
    if catches then
      let r := runExampleLoop catches rest
      (ExampleResult.errorPrinted e :: r.1, r.2)
    else ([], some e)

/-- The example loops of the demonstration scripts, each with the flag
recording whether its per-example completion request is wrapped in a
`try/except` that prints the error (read off the source files). -/
def exampleLoops : List (String × Bool) :=
  [("1_system_vs_user_prompts.compare_approaches", false),
   ("2_few_shot_learning.compare_approaches", true),
   ("2_few_shot_learning.demonstrate_pattern_learning", false),
   ("4_role_playing_prompts.demonstrate_role_differences", true),
   ("4_role_playing_prompts.demonstrate_industry_perspectives", true),
   ("4_role_playing_prompts.demonstrate_detailed_personas", true),
   ("5_constraint_based_prompting.validate_constraint_adherence.security", true),
   ("5_constraint_based_prompting.validate_constraint_adherence.performance", true),
   ("5_constraint_based_prompting.demonstrate_constraint_enforcement", true),
   ("5_constraint_based_prompting.test_boundary_conditions", true),
   ("6_structured_output.demonstrate_query_analysis", true),
   ("6_structured_output.demonstrate_security_audit", true),
   ("6_structured_output.demonstrate_performance_report", true),
   ("6_structured_output.test_edge_cases", true)]

/-- The trace of prompts produced when every attempt of the retry loop
fails: each attempt sends the previous prompt extended with its corrective
note. -/
def allFailTrace : Nat → Nat → Str → List Str
  | 0, _, _ => []
  | remaining + 1, attempt, prompt =>
    prompt :: allFailTrace remaining (attempt + 1) (prompt ++ retryNote attempt)

/-- The `simple_schema` of `test_edge_cases` (lines 293-297), also the
schema of the concrete scenario of the specification. -/
def simple_schema : Schema :=
  [("status".toList, JsonValue.str ("success|error".toList)),
   ("message".toList, JsonValue.str ("string".toList)),
   ("data".toList, JsonValue.str ("any valid JSON value or null".toList))]

/-- The fenced raw response of the concrete success scenario. -/
def rawFenced : Str :=
  "```json\n\x7b\"status\": \"success\", \"message\": \"ok\", \"data\": null\x7d\n```".toList

/-- The mapping that the concrete success scenario must produce. -/
def expectedFenced : JsonValue :=
  JsonValue.obj [("status".toList, JsonValue.str ("success".toList)),
    ("message".toList, JsonValue.str ("ok".toList)),
    ("data".toList, JsonValue.null)]

/-- The unparsable raw response of the concrete failure scenario. -/
def notJsonAtAll : Str := "not json at all".toList

/-- A valid JSON response missing two of the three schema keys. -/
def missingKeysRaw : Str := "\x7b\"status\": \"ok\"\x7d".toList

/-- The mapping parsed from `missingKeysRaw`. -/
def missingKeysObj : JsonValue :=
  JsonValue.obj [("status".toList, JsonValue.str ("ok".toList))]

/-- Responses for the bounded-success scenario: the first attempt is
unparsable, the second is the fenced valid response. -/
def respSecondOk : Nat → CompletionResult :=
  fun n => if n = 0 then CompletionResult.ok notJsonAtAll else CompletionResult.ok rawFenced

/-- Responses where every attempt returns the unparsable text. -/
def respAllBad : Nat → CompletionResult :=
  fun _ => CompletionResult.ok notJsonAtAll

/-- Responses where the first attempt is unparsable and the second request
fails at the network level. -/
def respNetFail : Nat → CompletionResult :=
  fun n => if n = 0 then CompletionResult.ok notJsonAtAll
    else CompletionResult.failure ("connection reset".toList)

/-- Responses whose first attempt is the fenced valid response. -/
def respFenced : Nat → CompletionResult :=
  fun _ => CompletionResult.ok rawFenced

/-- A string with no backtick character; fenced bodies of this shape are
returned intact by the fence-cleaning step. -/
abbrev btFree (s : Str) : Prop := ∀ c ∈ s, c ≠ btChar

theorem isPrefixOf_append_self (x u : Str) : x.isPrefixOf (x ++ u) = true := by
  induction x with
  | nil => simp [List.isPrefixOf]
  | cons c x ih => simp [List.isPrefixOf, ih]

theorem isPrefixOf_append_cancel (x u v : Str) :
    (x ++ u).isPrefixOf (x ++ v) = u.isPrefixOf v := by
  induction x with
  | nil => simp
  | cons c x ih => simpa [List.isPrefixOf] using ih

theorem isPrefixOf_mono (x u w : Str) (h : (x ++ u).isPrefixOf w = true) :
    x.isPrefixOf w = true := by
  induction x generalizing w with
  | nil => simp [List.isPrefixOf]
  | cons c x ih =>
    cases w with
    | nil => simp [List.isPrefixOf] at h
    | cons b bs =>
      simp only [List.cons_append, List.isPrefixOf, Bool.and_eq_true] at h ⊢
      exact ⟨h.1, ih bs h.2⟩

theorem replaceAllF_nil (pat rep : Str) (fuel : Nat) : replaceAllF pat rep fuel [] = [] := by
  cases fuel <;> rfl

theorem replaceAllF_cons_match (p : Char) (pr rep : Str) (fuel : Nat) (rest : Str) :
    replaceAllF (p :: pr) rep (fuel + 1) ((p :: pr) ++ rest)
      = rep ++ replaceAllF (p :: pr) rep fuel rest := by
  show replaceAllF (p :: pr) rep (fuel + 1) (p :: (pr ++ rest)) = _
  rw [replaceAllF]
  rw [if_pos ⟨List.cons_ne_nil p pr, by
    show (p :: pr).isPrefixOf ((p :: pr) ++ rest) = true
    exact isPrefixOf_append_self _ _⟩]
  congr 1
  show replaceAllF (p :: pr) rep fuel (((p :: pr) ++ rest).drop (p :: pr).length) = _
  rw [List.drop_left]

theorem replaceAllF_skip (pat rep : Str) (s t : Str)
    (hs : ∀ c ∈ s, pat.head? ≠ some c) (fuel : Nat) :
    replaceAllF pat rep (s.length + fuel) (s ++ t) = s ++ replaceAllF pat rep fuel t := by
  induction s with
  | nil => simp
  | cons c s' ih =>
    have hc : pat.head? ≠ some c := hs c (by simp)
    have hs' : ∀ d ∈ s', pat.head? ≠ some d := fun d hd => hs d (by simp [hd])
    have hlen : (c :: s').length + fuel = (s'.length + fuel) + 1 := by
      simp [List.length_cons]; omega
    rw [hlen]
    show replaceAllF pat rep ((s'.length + fuel) + 1) (c :: (s' ++ t)) = _
    rw [replaceAllF]
    have hcond : ¬(pat ≠ [] ∧ pat.isPrefixOf (c :: (s' ++ t)) = true) := by
      rintro ⟨hne, hpre⟩
      cases pat with
      | nil => exact hne rfl
      | cons p pr =>
        simp only [List.isPrefixOf, Bool.and_eq_true, beq_iff_eq] at hpre
        exact hc (by simp [hpre.1])
    rw [if_neg hcond, ih hs', List.cons_append]

theorem skip_of_btFree (pat rep : Str) (hp : pat.head? = some btChar) (s t : Str)
    (hs : btFree s) (fuel : Nat) :
    replaceAllF pat rep (s.length + fuel) (s ++ t) = s ++ replaceAllF pat rep fuel t :=
  replaceAllF_skip pat rep s t
    (fun c hc h => hs c hc (by rw [hp] at h; exact (Option.some.inj h).symm)) fuel

theorem replaceAllF_fj_match (rep : Str) (fuel : Nat) (rest : Str) :
    replaceAllF fenceJson rep (fuel + 1) (fenceJson ++ rest)
      = rep ++ replaceAllF fenceJson rep fuel rest := by
  have hfj : fenceJson = btChar :: "``json".toList := by decide
  rw [hfj]
  exact replaceAllF_cons_match _ _ _ _ _

theorem replaceAllF_ft_match (rep : Str) (fuel : Nat) (rest : Str) :
    replaceAllF fenceTicks rep (fuel + 1) (fenceTicks ++ rest)
      = rep ++ replaceAllF fenceTicks rep fuel rest := by
  have hft : fenceTicks = btChar :: "``".toList := by decide
  rw [hft]
  exact replaceAllF_cons_match _ _ _ _ _

theorem btFree_append (a b : Str) (ha : btFree a) (hb : btFree b) : btFree (a ++ b) := by
  intro c hc
  rcases List.mem_append.mp hc with h | h
  · exact ha c h
  · exact hb c h

theorem pyReplace_fj_simple (body : Str) (hb : btFree body) :
    pyReplace (fenceJson ++ (body ++ fenceTicks)) fenceJson [] = body ++ fenceTicks := by
  have h7 : fenceJson.length = 7 := by decide
  have h3 : fenceTicks.length = 3 := by decide
  have hlen : (fenceJson ++ (body ++ fenceTicks)).length = (body.length + 9) + 1 := by
    simp only [List.length_append, h7, h3]; omega
  unfold pyReplace
  rw [hlen, replaceAllF_fj_match, List.nil_append,
    skip_of_btFree fenceJson [] (by decide) body fenceTicks hb 9]
  have h9 : replaceAllF fenceJson [] 9 fenceTicks = fenceTicks := by decide
  rw [h9]

theorem pyReplace_ticks_end (u : Str) (hu : btFree u) :
    pyReplace (u ++ fenceTicks) fenceTicks [] = u := by
  have h3 : fenceTicks.length = 3 := by decide
  have hlen : (u ++ fenceTicks).length = u.length + 3 := by
    simp only [List.length_append, h3]
  unfold pyReplace
  rw [hlen, skip_of_btFree fenceTicks [] (by decide) u fenceTicks hu 3]
  have h0 : replaceAllF fenceTicks [] 3 fenceTicks = [] := by decide
  rw [h0, List.append_nil]

theorem pyReplace_ft_simple (body : Str) (hb : btFree body) :
    pyReplace (fenceTicks ++ (body ++ fenceTicks)) fenceTicks [] = body := by
  have h3 : fenceTicks.length = 3 := by decide
  have hlen : (fenceTicks ++ (body ++ fenceTicks)).length = (body.length + 5) + 1 := by
    simp only [List.length_append, h3]; omega
  unfold pyReplace
  rw [hlen, replaceAllF_ft_match, List.nil_append,
    skip_of_btFree fenceTicks [] (by decide) body fenceTicks hb 5]
  have h0 : replaceAllF fenceTicks [] 5 fenceTicks = [] := by decide
  rw [h0, List.append_nil]

theorem pyReplace_fj_double (a b : Str) (ha : btFree a) (hb : btFree b) :
    pyReplace (fenceJson ++ (a ++ (fenceJson ++ (b ++ fenceTicks)))) fenceJson []
      = a ++ (b ++ fenceTicks) := by
  have h7 : fenceJson.length = 7 := by decide
  have h3 : fenceTicks.length = 3 := by decide
  have hlen : (fenceJson ++ (a ++ (fenceJson ++ (b ++ fenceTicks)))).length
      = (a.length + (b.length + 16)) + 1 := by
    simp only [List.length_append, h7, h3]; omega
  unfold pyReplace
  rw [hlen, replaceAllF_fj_match, List.nil_append,
    skip_of_btFree fenceJson [] (by decide) a (fenceJson ++ (b ++ fenceTicks)) ha (b.length + 16)]
  have h2 : b.length + 16 = (b.length + 15) + 1 := by omega
  rw [h2, replaceAllF_fj_match, List.nil_append,
    skip_of_btFree fenceJson [] (by decide) b fenceTicks hb 15]
  have h15 : replaceAllF fenceJson [] 15 fenceTicks = fenceTicks := by decide
  rw [h15]

theorem pyReplace_ft_double (a b : Str) (ha : btFree a) (hb : btFree b) :
    pyReplace (fenceTicks ++ (a ++ (fenceTicks ++ (b ++ fenceTicks)))) fenceTicks []
      = a ++ b := by
  have h3 : fenceTicks.length = 3 := by decide
  have hlen : (fenceTicks ++ (a ++ (fenceTicks ++ (b ++ fenceTicks)))).length
      = (a.length + (b.length + 8)) + 1 := by
    simp only [List.length_append, h3]; omega
  unfold pyReplace
  rw [hlen, replaceAllF_ft_match, List.nil_append,
    skip_of_btFree fenceTicks [] (by decide) a (fenceTicks ++ (b ++ fenceTicks)) ha (b.length + 8)]
  have h2 : b.length + 8 = (b.length + 7) + 1 := by omega
  rw [h2, replaceAllF_ft_match, List.nil_append,
    skip_of_btFree fenceTicks [] (by decide) b fenceTicks hb 7]
  have h0 : replaceAllF fenceTicks [] 7 fenceTicks = [] := by decide
  rw [h0, List.append_nil]

theorem pyStrip_bt_bt (u : Str) :
    pyStrip (btChar :: (u ++ [btChar])) = btChar :: (u ++ [btChar]) := by
  have hbt : isPySpace btChar = false := by decide
  simp [pyStrip, List.dropWhile_cons, hbt, List.reverse_append]

theorem pyStrip_eq_self_of_shape (T u : Str) (h : T = btChar :: (u ++ [btChar])) :
    pyStrip T = T := by
  rw [h, pyStrip_bt_bt]

theorem fj_isPrefixOf_ft_append (rest : Str) :
    fenceJson.isPrefixOf (fenceTicks ++ rest) = "json".toList.isPrefixOf rest := by
  have h : fenceJson = fenceTicks ++ "json".toList := by decide
  rw [h, isPrefixOf_append_cancel]

theorem clean_tagged (body : Str) (hb : btFree body) :
    cleanResultText (fenceJson ++ (body ++ fenceTicks)) = pyStrip body := by
  have hstrip : pyStrip (fenceJson ++ (body ++ fenceTicks)) = fenceJson ++ (body ++ fenceTicks) := by
    refine pyStrip_eq_self_of_shape _ ("``json".toList ++ (body ++ "``".toList)) ?_
    have h1 : fenceJson = btChar :: "``json".toList := by decide
    have h2 : fenceTicks = "``".toList ++ [btChar] := by decide
    rw [h1, h2]
    simp [List.append_assoc]
  simp only [cleanResultText, hstrip, isPrefixOf_append_self, if_pos]
  rw [pyReplace_fj_simple body hb, pyReplace_ticks_end body hb]

theorem clean_untagged (body : Str) (hb : btFree body)
    (hnj : "json".toList.isPrefixOf (body ++ fenceTicks) = false) :
    cleanResultText (fenceTicks ++ (body ++ fenceTicks)) = pyStrip body := by
  have hstrip : pyStrip (fenceTicks ++ (body ++ fenceTicks))
      = fenceTicks ++ (body ++ fenceTicks) := by
    refine pyStrip_eq_self_of_shape _ ("``".toList ++ (body ++ "``".toList)) ?_
    have h2 : fenceTicks = "``".toList ++ [btChar] := by decide
    have h3 : fenceTicks = btChar :: "``".toList := by decide
    conv_lhs => rw [show fenceTicks ++ (body ++ fenceTicks)
      = (btChar :: "``".toList) ++ (body ++ ("``".toList ++ [btChar])) from by rw [← h2, ← h3]]
    simp [List.append_assoc]
  simp only [cleanResultText, hstrip]
  rw [fj_isPrefixOf_ft_append, hnj]
  simp only [Bool.false_eq_true, if_false, isPrefixOf_append_self, if_pos]
  rw [pyReplace_ft_simple body hb]

theorem clean_tagged_double (a b : Str) (ha : btFree a) (hb : btFree b) :
    cleanResultText (fenceJson ++ (a ++ (fenceJson ++ (b ++ fenceTicks)))) = pyStrip (a ++ b) := by
  have hstrip : pyStrip (fenceJson ++ (a ++ (fenceJson ++ (b ++ fenceTicks))))
      = fenceJson ++ (a ++ (fenceJson ++ (b ++ fenceTicks))) := by
    refine pyStrip_eq_self_of_shape _
      ("``json".toList ++ (a ++ (fenceJson ++ (b ++ "``".toList)))) ?_
    have h1 : fenceJson = btChar :: "``json".toList := by decide
    have h2 : fenceTicks = "``".toList ++ [btChar] := by decide
    rw [h2, h1]
    simp [List.append_assoc]
  simp only [cleanResultText, hstrip, isPrefixOf_append_self, if_pos]
  rw [pyReplace_fj_double a b ha hb,
    show a ++ (b ++ fenceTicks) = (a ++ b) ++ fenceTicks from by simp [List.append_assoc],
    pyReplace_ticks_end (a ++ b) (btFree_append a b ha hb)]

theorem clean_untagged_double (a b : Str) (ha : btFree a) (hb : btFree b)
    (hnj : "json".toList.isPrefixOf (a ++ (fenceTicks ++ (b ++ fenceTicks))) = false) :
    cleanResultText (fenceTicks ++ (a ++ (fenceTicks ++ (b ++ fenceTicks)))) = pyStrip (a ++ b) := by
  have hstrip : pyStrip (fenceTicks ++ (a ++ (fenceTicks ++ (b ++ fenceTicks))))
      = fenceTicks ++ (a ++ (fenceTicks ++ (b ++ fenceTicks))) := by
    refine pyStrip_eq_self_of_shape _
      ("``".toList ++ (a ++ (fenceTicks ++ (b ++ "``".toList)))) ?_
    have h2 : fenceTicks = "``".toList ++ [btChar] := by decide
    have h3 : fenceTicks = btChar :: "``".toList := by decide
    conv_lhs => rw [show fenceTicks ++ (a ++ (fenceTicks ++ (b ++ fenceTicks)))
      = (btChar :: "``".toList) ++ (a ++ (fenceTicks ++ (b ++ ("``".toList ++ [btChar]))))
      from by rw [← h2, ← h3]]
    simp [List.append_assoc]
  simp only [cleanResultText, hstrip]
  rw [fj_isPrefixOf_ft_append, hnj]
  simp only [Bool.false_eq_true, if_false, isPrefixOf_append_self, if_pos]
  rw [pyReplace_ft_double a b ha hb]

theorem clean_nofence (content : Str)
    (h : fenceTicks.isPrefixOf (pyStrip content) = false) :
    cleanResultText content = pyStrip content := by
  have hj : fenceJson.isPrefixOf (pyStrip content) = false := by
    cases hb : fenceJson.isPrefixOf (pyStrip content) with
    | false => rfl
    | true =>
      have hsplit : fenceTicks ++ "json".toList = fenceJson := by decide
      rw [← hsplit] at hb
      have := isPrefixOf_mono fenceTicks ("json".toList) (pyStrip content) hb
      rw [h] at this
      exact absurd this (by simp)
  simp only [cleanResultText, hj, h, Bool.false_eq_true, if_false]

theorem loop_length_le (schema : Schema) (responses : Nat → CompletionResult)
    (maxRetries : Nat) :
    ∀ remaining attempt prompt,
      (enforceLoop schema responses maxRetries remaining attempt prompt).1.length ≤ remaining := by
  intro remaining
  induction remaining with
  | zero => intro attempt prompt; simp [enforceLoop]
  | succ r ih =>
    intro attempt prompt
    simp only [enforceLoop]
    cases hr : responses attempt with
    | failure msg => simp
    | ok content =>
      cases ha : attemptOnce schema content with
      | some parsed => simp [ha]
      | none =>
        simp only [ha]
        by_cases h : attempt = maxRetries - 1
        · simp [h]
        · simp only [h, if_false, List.length_cons]
          exact Nat.succ_le_succ (ih (attempt + 1) (prompt ++ retryNote attempt))

theorem loop_all_fail (schema : Schema) (responses : Nat → CompletionResult)
    (maxRetries : Nat)
    (hfail : ∀ j, j < maxRetries →
      ∃ c, responses j = CompletionResult.ok c ∧ attemptOnce schema c = none) :
    ∀ remaining attempt prompt, attempt + remaining = maxRetries →
      enforceLoop schema responses maxRetries remaining attempt prompt
        = (allFailTrace remaining attempt prompt,
           if remaining = 0 then EnforceOutcome.returnedNone else EnforceOutcome.raisedCeiling) := by
  intro remaining
  induction remaining with
  | zero => intro attempt prompt hinv; rfl
  | succ r ih =>
    intro attempt prompt hinv
    obtain ⟨c, hc, hn⟩ := hfail attempt (by omega)
    simp only [enforceLoop, allFailTrace, hc, hn]
    cases r with
    | zero =>
      have h : attempt = maxRetries - 1 := by omega
      simp [h, allFailTrace]
    | succ r' =>
      have hne : attempt ≠ maxRetries - 1 := by omega
      rw [if_neg hne, ih (attempt + 1) (prompt ++ retryNote attempt) (by omega)]
      simp

theorem loop_success (schema : Schema) (responses : Nat → CompletionResult)
    (maxRetries : Nat) :
    ∀ k remaining attempt prompt v, attempt + remaining = maxRetries → k < remaining →
      (∀ j, j < k → ∃ c, responses (attempt + j) = CompletionResult.ok c
        ∧ attemptOnce schema c = none) →
      (∃ c, responses (attempt + k) = CompletionResult.ok c ∧ attemptOnce schema c = some v) →
      (enforceLoop schema responses maxRetries remaining attempt prompt).2
          = EnforceOutcome.returned v
        ∧ (enforceLoop schema responses maxRetries remaining attempt prompt).1.length = k + 1 := by
  intro k
  induction k with
  | zero =>
    intro remaining attempt prompt v hinv hk hprev hsucc
    obtain ⟨c, hc, hv⟩ := hsucc
    rw [Nat.add_zero] at hc
    cases remaining with
    | zero => omega
    | succ r => simp [enforceLoop, hc, hv]
  | succ k ih =>
    intro remaining attempt prompt v hinv hk hprev hsucc
    cases remaining with
    | zero => omega
    | succ r =>
      obtain ⟨c0, hc0, hn0⟩ := hprev 0 (by omega)
      rw [Nat.add_zero] at hc0
      have hne : attempt ≠ maxRetries - 1 := by omega
      have hprev' : ∀ j, j < k → ∃ c, responses (attempt + 1 + j) = CompletionResult.ok c
          ∧ attemptOnce schema c = none := by
        intro j hj
        have := hprev (j + 1) (by omega)
        rwa [show attempt + (j + 1) = attempt + 1 + j from by omega] at this
      have hsucc' : ∃ c, responses (attempt + 1 + k) = CompletionResult.ok c
          ∧ attemptOnce schema c = some v := by
        rwa [show attempt + (k + 1) = attempt + 1 + k from by omega] at hsucc
      have hrec := ih r (attempt + 1) (prompt ++ retryNote attempt) v (by omega) (by omega)
        hprev' hsucc'
      simp only [enforceLoop, hc0, hn0, if_neg hne]
      exact ⟨hrec.1, by simp [hrec.2]⟩

theorem loop_netfail (schema : Schema) (responses : Nat → CompletionResult)
    (maxRetries : Nat) :
    ∀ k remaining attempt prompt msg, attempt + remaining = maxRetries → k < remaining →
      (∀ j, j < k → ∃ c, responses (attempt + j) = CompletionResult.ok c
        ∧ attemptOnce schema c = none) →
      responses (attempt + k) = CompletionResult.failure msg →
      (enforceLoop schema responses maxRetries remaining attempt prompt).2
          = EnforceOutcome.raisedCompletion msg
        ∧ (enforceLoop schema responses maxRetries remaining attempt prompt).1.length = k + 1 := by
  intro k
  induction k with
  | zero =>
    intro remaining attempt prompt msg hinv hk hprev hf
    rw [Nat.add_zero] at hf
    cases remaining with
    | zero => omega
    | succ r => simp [enforceLoop, hf]
  | succ k ih =>
    intro remaining attempt prompt msg hinv hk hprev hf
    cases remaining with
    | zero => omega
    | succ r =>
      obtain ⟨c0, hc0, hn0⟩ := hprev 0 (by omega)
      rw [Nat.add_zero] at hc0
      have hne : attempt ≠ maxRetries - 1 := by omega
      have hprev' : ∀ j, j < k → ∃ c, responses (attempt + 1 + j) = CompletionResult.ok c
          ∧ attemptOnce schema c = none := by
        intro j hj
        have := hprev (j + 1) (by omega)
        rwa [show attempt + (j + 1) = attempt + 1 + j from by omega] at this
      have hf' : responses (attempt + 1 + k) = CompletionResult.failure msg := by
        rwa [show attempt + (k + 1) = attempt + 1 + k from by omega] at hf
      have hrec := ih r (attempt + 1) (prompt ++ retryNote attempt) msg (by omega) (by omega)
        hprev' hf'
      simp only [enforceLoop, hc0, hn0, if_neg hne]
      exact ⟨hrec.1, by simp [hrec.2]⟩

theorem allFailTrace_length : ∀ (r a : Nat) (p : Str), (allFailTrace r a p).length = r := by
  intro r
  induction r with
  | zero => intro a p; rfl
  | succ r ih => intro a p; simp [allFailTrace, ih]

theorem retryNote_ne_nil (j : Nat) : retryNote j ≠ [] := by
  intro h
  have hlen := congrArg List.length h
  have h9 : ("\n\nATTEMPT ".toList).length = 10 := by decide
  simp [retryNote, List.length_append, h9] at hlen

theorem allFailTrace_getD_succ :
    ∀ (r j a : Nat) (p : Str), j + 1 < r →
      (allFailTrace r a p).getD (j + 1) []
        = (allFailTrace r a p).getD j [] ++ retryNote (a + j) := by
  intro r
  induction r with
  | zero => intro j a p h; omega
  | succ r ih =>
    intro j a p h
    cases j with
    | zero =>
      cases r with
      | zero => omega
      | succ r' => simp [allFailTrace, List.getD_cons_succ, List.getD_cons_zero]
    | succ j' =>
      simp only [allFailTrace, List.getD_cons_succ]
      rw [ih j' (a + 1) (p ++ retryNote a) (by omega),
        show a + 1 + j' = a + (j' + 1) from by omega]

theorem runExampleLoop_catches : ∀ outs : List (Except Str Str),
    (runExampleLoop true outs).1.length = outs.length ∧ (runExampleLoop true outs).2 = none := by
  intro outs
  induction outs with
  | nil => exact ⟨rfl, rfl⟩
  | cons x rest ih =>
    cases x with
    | ok o => simpa [runExampleLoop] using ih
    | error e => simpa [runExampleLoop] using ih

/-- C1: for every schema and prompt, the enforcer function returned by
`create_json_enforcer` makes at most `max_retries` completion attempts, and
on the first attempt whose response (after fence cleaning) parses as JSON
and passes the key-presence check it returns that parsed mapping
immediately, issuing no further completion calls. -/
theorem c1_enforcer_bounded_first_success
    (schema : Schema) (max_retries : Nat) (responses : Nat → CompletionResult) (prompt : Str) :
    (create_json_enforcer schema max_retries responses prompt).1.length ≤ max_retries
    ∧ (∀ k v, k < max_retries →
        (∀ j, j < k → ∃ c, responses j = CompletionResult.ok c ∧ attemptOnce schema c = none) →
        (∃ c, responses k = CompletionResult.ok c ∧ attemptOnce schema c = some v) →
        (create_json_enforcer schema max_retries responses prompt).2 = EnforceOutcome.returned v
        ∧ (create_json_enforcer schema max_retries responses prompt).1.length = k + 1) := by
  constructor
  · exact loop_length_le schema responses max_retries max_retries 0
      (initialJsonPrompt prompt schema)
  · intro k v hk hprev hsucc
    have hprev' : ∀ j, j < k → ∃ c, responses (0 + j) = CompletionResult.ok c
        ∧ attemptOnce schema c = none := by
      intro j hj; simpa using hprev j hj
    have hsucc' : ∃ c, responses (0 + k) = CompletionResult.ok c
        ∧ attemptOnce schema c = some v := by simpa using hsucc
    exact loop_success schema responses max_retries k max_retries 0
      (initialJsonPrompt prompt schema) v (by omega) hk hprev' hsucc'

/-- Witness for C1: ceiling 3, first attempt unparsable, second attempt the
fenced valid response; the enforcer returns the parsed mapping after exactly
two completion calls. -/
theorem c1_witness :
    1 < 3
    ∧ (create_json_enforcer simple_schema 3 respSecondOk ("analyze".toList)).2
        = EnforceOutcome.returned expectedFenced
    ∧ (create_json_enforcer simple_schema 3 respSecondOk ("analyze".toList)).1.length = 1 + 1 := by
  refine ⟨by omega, ?_⟩
  have h := (c1_enforcer_bounded_first_success simple_schema 3 respSecondOk
    ("analyze".toList)).2 1 expectedFenced (by omega)
    (fun j hj => by
      have hj0 : j = 0 := by omega
      subst hj0
      exact ⟨notJsonAtAll, rfl, rfl⟩)
    ⟨rawFenced, rfl, rfl⟩
  exact h

/-- C2: if every one of the `max_retries` attempts fails to parse or fails
the key-presence check, the enforcer raises the ceiling exception to its
caller rather than returning a partial result, each failed non-final attempt
having triggered exactly one retry with an amended (strictly changed)
prompt; and the raw response `"not json at all"` fails the parse step for
every schema. -/
theorem c2_enforcer_raises_after_ceiling :
    (∀ (schema : Schema) (max_retries : Nat) (responses : Nat → CompletionResult) (prompt : Str),
      0 < max_retries →
      (∀ j, j < max_retries →
        ∃ c, responses j = CompletionResult.ok c ∧ attemptOnce schema c = none) →
      (create_json_enforcer schema max_retries responses prompt).2 = EnforceOutcome.raisedCeiling
      ∧ (create_json_enforcer schema max_retries responses prompt).1.length = max_retries
      ∧ (∀ j, j + 1 < max_retries →
          (create_json_enforcer schema max_retries responses prompt).1.getD (j + 1) []
            ≠ (create_json_enforcer schema max_retries responses prompt).1.getD j []))
    ∧ (∀ schema : Schema, attemptOnce schema notJsonAtAll = none) := by
  constructor
  · intro schema mr responses prompt hpos hfail
    have hloop := loop_all_fail schema responses mr hfail mr 0
      (initialJsonPrompt prompt schema) (by omega)
    have hC : create_json_enforcer schema mr responses prompt
        = (allFailTrace mr 0 (initialJsonPrompt prompt schema), EnforceOutcome.raisedCeiling) := by
      rw [show create_json_enforcer schema mr responses prompt
        = enforceLoop schema responses mr mr 0 (initialJsonPrompt prompt schema) from rfl, hloop,
        if_neg (by omega : ¬ mr = 0)]
    refine ⟨by rw [hC], by rw [hC]; exact allFailTrace_length mr 0 _, ?_⟩
    intro j hj
    rw [hC]
    have hgd := allFailTrace_getD_succ mr j 0 (initialJsonPrompt prompt schema) hj
    rw [Nat.zero_add] at hgd
    simp only
    rw [hgd]
    intro heq
    have hl := congrArg List.length heq
    rw [List.length_append] at hl
    have h0 : (retryNote j).length = 0 := by omega
    exact retryNote_ne_nil j (List.length_eq_zero.mp h0)
  · intro schema; rfl

/-- Witness for C2: ceiling 3, every response the unparsable text; the
enforcer raises after exactly three attempts. -/
theorem c2_witness :
    0 < 3
    ∧ (create_json_enforcer simple_schema 3 respAllBad ("analyze".toList)).2
        = EnforceOutcome.raisedCeiling
    ∧ (create_json_enforcer simple_schema 3 respAllBad ("analyze".toList)).1.length = 3 := by
  have h := c2_enforcer_raises_after_ceiling.1 simple_schema 3 respAllBad
    ("analyze".toList) (by omega) (fun j hj => ⟨notJsonAtAll, rfl, rfl⟩)
  exact ⟨by omega, h.1, h.2.1⟩

/-- C3: on any attempt that fails the parse or key check and is not the
final one, the corrective note is appended, so the prompt sent on attempt
`j+1` equals the prompt of attempt `j` followed by that attempt's corrective
note; and after the final attempt fails, the enforcer raises. -/
theorem c3_retry_appends_note
    (schema : Schema) (max_retries : Nat) (responses : Nat → CompletionResult) (prompt : Str)
    (hfail : ∀ j, j < max_retries →
      ∃ c, responses j = CompletionResult.ok c ∧ attemptOnce schema c = none) :
    (∀ j, j + 1 < max_retries →
      (create_json_enforcer schema max_retries responses prompt).1.getD (j + 1) []
        = (create_json_enforcer schema max_retries responses prompt).1.getD j []
            ++ retryNote j)
    ∧ (0 < max_retries →
        (create_json_enforcer schema max_retries responses prompt).2
          = EnforceOutcome.raisedCeiling) := by
  have hloop := loop_all_fail schema responses max_retries hfail max_retries 0
    (initialJsonPrompt prompt schema) (by omega)
  have hC : create_json_enforcer schema max_retries responses prompt
      = (allFailTrace max_retries 0 (initialJsonPrompt prompt schema),
         if max_retries = 0 then EnforceOutcome.returnedNone else EnforceOutcome.raisedCeiling) := by
    rw [show create_json_enforcer schema max_retries responses prompt
      = enforceLoop schema responses max_retries max_retries 0
          (initialJsonPrompt prompt schema) from rfl, hloop]
  constructor
  · intro j hj
    rw [hC]
    simp only
    have hgd := allFailTrace_getD_succ max_retries j 0 (initialJsonPrompt prompt schema) hj
    rw [Nat.zero_add] at hgd
    exact hgd
  · intro hpos
    rw [hC]
    simp only
    rw [if_neg (by omega : ¬ max_retries = 0)]

/-- Witness for C3: ceiling 2, every response unparsable; the second prompt
is the first prompt followed by the corrective note, and the enforcer
raises. -/
theorem c3_witness :
    (∀ j, j < 2 → ∃ c, respAllBad j = CompletionResult.ok c
      ∧ attemptOnce simple_schema c = none)
    ∧ (create_json_enforcer simple_schema 2 respAllBad ("q".toList)).1.getD 1 []
        = (create_json_enforcer simple_schema 2 respAllBad ("q".toList)).1.getD 0 []
            ++ retryNote 0
    ∧ (create_json_enforcer simple_schema 2 respAllBad ("q".toList)).2
        = EnforceOutcome.raisedCeiling := by
  have hf : ∀ j, j < 2 → ∃ c, respAllBad j = CompletionResult.ok c
      ∧ attemptOnce simple_schema c = none := fun j hj => ⟨notJsonAtAll, rfl, rfl⟩
  have h := c3_retry_appends_note simple_schema 2 respAllBad ("q".toList) hf
  exact ⟨hf, h.1 0 (by omega), h.2 (by omega)⟩

/-- C4: the code-fence cleaning performed before JSON parsing removes the
leading marker and the trailing marker, for a tagged fence (leading
"```json") and for an untagged fence (leading "```"); stated for fence
bodies free of backticks, the body of the untagged form not itself starting
with the tag text `json`. -/
theorem c4_fence_cleaning (body : Str) (hb : btFree body)
    (hnj : "json".toList.isPrefixOf (body ++ fenceTicks) = false) :
    cleanResultText (fenceJson ++ (body ++ fenceTicks)) = pyStrip body
    ∧ cleanResultText (fenceTicks ++ (body ++ fenceTicks)) = pyStrip body :=
  ⟨clean_tagged body hb, clean_untagged body hb hnj⟩

/-- Witness for C4 at a concrete JSON body. -/
theorem c4_witness :
    btFree ("\x7b\"a\": 1\x7d".toList)
    ∧ "json".toList.isPrefixOf ("\x7b\"a\": 1\x7d".toList ++ fenceTicks) = false
    ∧ cleanResultText (fenceJson ++ ("\x7b\"a\": 1\x7d".toList ++ fenceTicks))
        = pyStrip ("\x7b\"a\": 1\x7d".toList)
    ∧ cleanResultText (fenceTicks ++ ("\x7b\"a\": 1\x7d".toList ++ fenceTicks))
        = pyStrip ("\x7b\"a\": 1\x7d".toList) := by
  have h := c4_fence_cleaning ("\x7b\"a\": 1\x7d".toList) (by decide) (by decide)
  exact ⟨by decide, by decide, h.1, h.2⟩

/-- C5: `validate_schema` returns false when the value is not a mapping or
when some schema-declared key is absent from it, and true otherwise,
whatever the values stored under the keys. -/
theorem c5_validate_schema :
    (∀ (schema : Schema) (data : JsonValue), (∀ kvs, data ≠ JsonValue.obj kvs) →
      validate_schema data schema = false)
    ∧ (∀ (schema : Schema) (kvs : List (Str × JsonValue)) (k : Str) (dsc : JsonValue),
        (k, dsc) ∈ schema → (∀ q ∈ kvs, q.1 ≠ k) →
        validate_schema (JsonValue.obj kvs) schema = false)
    ∧ (∀ (schema : Schema) (kvs : List (Str × JsonValue)),
        (∀ p ∈ schema, ∃ q ∈ kvs, q.1 = p.1) →
        validate_schema (JsonValue.obj kvs) schema = true) := by
  refine ⟨?_, ?_, ?_⟩
  · intro schema data h
    cases data with
    | obj kvs => exact absurd rfl (h kvs)
    | null => rfl
    | bool b => rfl
    | num lex => rfl
    | str s => rfl
    | arr xs => rfl
  · intro schema kvs k dsc hmem habs
    simp only [validate_schema]
    cases hval : (schema.all fun p => kvs.any fun q => decide (q.1 = p.1)) with
    | false => rfl
    | true =>
      exfalso
      have hall := (List.all_eq_true.mp hval) (k, dsc) hmem
      simp only [List.any_eq_true, decide_eq_true_eq] at hall
      obtain ⟨q, hq, hqe⟩ := hall
      exact habs q hq hqe
  · intro schema kvs h
    simp only [validate_schema, List.all_eq_true]
    intro p hp
    simp only [List.any_eq_true, decide_eq_true_eq]
    exact h p hp

/-- Witness for C5: a non-mapping value fails, a mapping missing the
`message` key fails, and the full three-key mapping passes. -/
theorem c5_witness :
    validate_schema (JsonValue.str ("oops".toList)) simple_schema = false
    ∧ validate_schema missingKeysObj simple_schema = false
    ∧ validate_schema expectedFenced simple_schema = true := by
  refine ⟨c5_validate_schema.1 simple_schema _ (fun kvs h => JsonValue.noConfusion h), ?_, ?_⟩
  · exact c5_validate_schema.2.1 simple_schema
      [("status".toList, JsonValue.str ("ok".toList))] ("message".toList)
      (JsonValue.str ("string".toList)) (List.Mem.tail _ (List.Mem.head _)) (by decide)
  · exact c5_validate_schema.2.2 simple_schema
      [("status".toList, JsonValue.str ("success".toList)),
       ("message".toList, JsonValue.str ("ok".toList)),
       ("data".toList, JsonValue.null)] (by decide)

/-- C6: with `simple_schema` and the fenced raw response of the
specification's concrete scenario, fence stripping and parsing yield the
mapping with exactly the keys status, message and data; it passes
`validate_schema` and the enforcer returns it unchanged on the first
attempt, with no further completion calls. -/
theorem c6_fenced_scenario :
    attemptOnce simple_schema rawFenced = some expectedFenced
    ∧ validate_schema expectedFenced simple_schema = true
    ∧ (∀ (responses : Nat → CompletionResult) (prompt : Str),
        responses 0 = CompletionResult.ok rawFenced →
        (create_json_enforcer simple_schema 3 responses prompt).2
            = EnforceOutcome.returned expectedFenced
        ∧ (create_json_enforcer simple_schema 3 responses prompt).1.length = 1) := by
  refine ⟨rfl, rfl, ?_⟩
  intro responses prompt h0
  have h := loop_success simple_schema responses 3 0 3 0
    (initialJsonPrompt prompt simple_schema) expectedFenced (by omega) (by omega)
    (fun j hj => absurd hj (by omega)) ⟨rawFenced, by simpa using h0, rfl⟩
  exact ⟨h.1, h.2⟩

/-- Witness for C6 at the constant fenced-response oracle. -/
theorem c6_witness :
    respFenced 0 = CompletionResult.ok rawFenced
    ∧ (create_json_enforcer simple_schema 3 respFenced ("p".toList)).2
        = EnforceOutcome.returned expectedFenced
    ∧ (create_json_enforcer simple_schema 3 respFenced ("p".toList)).1.length = 1 := by
  have h := c6_fenced_scenario.2.2 respFenced ("p".toList) rfl
  exact ⟨rfl, h.1, h.2⟩

/-- C8: a completion-call exception that is not a JSON decode error or a
ValueError (e.g. a network failure) propagates out of `enforce_json_output`
on whatever attempt it occurs, without being retried and without the
remaining attempts being used. -/
theorem c8_completion_failure_propagates
    (schema : Schema) (max_retries : Nat) (responses : Nat → CompletionResult) (prompt : Str)
    (k : Nat) (msg : Str) (hk : k < max_retries)
    (hprev : ∀ j, j < k → ∃ c, responses j = CompletionResult.ok c
      ∧ attemptOnce schema c = none)
    (hf : responses k = CompletionResult.failure msg) :
    (enforce_json_output schema max_retries responses prompt).2
        = EnforceOutcome.raisedCompletion msg
    ∧ (enforce_json_output schema max_retries responses prompt).1.length = k + 1 := by
  have hprev' : ∀ j, j < k → ∃ c, responses (0 + j) = CompletionResult.ok c
      ∧ attemptOnce schema c = none := by
    intro j hj; simpa using hprev j hj
  have hf' : responses (0 + k) = CompletionResult.failure msg := by simpa using hf
  exact loop_netfail schema responses max_retries k max_retries 0
    (initialJsonPrompt prompt schema) msg (by omega) hk hprev' hf'

/-- Witness for C8: first attempt unparsable, second request fails at the
network level; the failure propagates after exactly two attempts. -/
theorem c8_witness :
    1 < 3
    ∧ respNetFail 1 = CompletionResult.failure ("connection reset".toList)
    ∧ (enforce_json_output simple_schema 3 respNetFail ("analyze".toList)).2
        = EnforceOutcome.raisedCompletion ("connection reset".toList)
    ∧ (enforce_json_output simple_schema 3 respNetFail ("analyze".toList)).1.length = 1 + 1 := by
  have h := c8_completion_failure_propagates simple_schema 3 respNetFail
    ("analyze".toList) 1 ("connection reset".toList) (by omega)
    (fun j hj => by
      have hj0 : j = 0 := by omega
      subst hj0
      exact ⟨notJsonAtAll, rfl, rfl⟩) rfl
  exact ⟨by omega, rfl, h.1, h.2⟩

/-- C7 as stated is false: not every example loop of the demonstration
scripts catches a failed completion request; the `demonstrate_pattern_learning`
loop of `2_few_shot_learning.py` has no try/except, and in an uncaught loop
a failure of the first example prevents all subsequent examples from
executing. -/
theorem c7_counterexample :
    ¬ (∀ p ∈ exampleLoops, p.2 = true)
    ∧ ("2_few_shot_learning.demonstrate_pattern_learning", false) ∈ exampleLoops
    ∧ runExampleLoop false [Except.error ("boom".toList), Except.ok ("fine".toList)]
        = ([], some ("boom".toList)) := by
  refine ⟨?_, by decide, rfl⟩
  intro h
  exact Bool.false_ne_true
    (h ("2_few_shot_learning.demonstrate_pattern_learning", false) (by decide))

/-- C7 amended: in every example loop whose body wraps the completion
request in try/except — all the example loops except `compare_approaches`
of `1_system_vs_user_prompts.py` and `demonstrate_pattern_learning` of
`2_few_shot_learning.py` — a failure raised by one example is caught and
printed and every subsequent example still executes; in the two loops
without try/except, a failure aborts the remaining examples. -/
theorem c7_amended_loop_behaviour :
    (∀ outs : List (Except Str Str),
      (runExampleLoop true outs).1.length = outs.length
      ∧ (runExampleLoop true outs).2 = none)
    ∧ (∀ (e : Str) (rest : List (Except Str Str)),
        runExampleLoop false (Except.error e :: rest) = ([], some e))
    ∧ exampleLoops.filter (fun p => !p.2)
        = [("1_system_vs_user_prompts.compare_approaches", false),
           ("2_few_shot_learning.demonstrate_pattern_learning", false)] :=
  ⟨runExampleLoop_catches, fun e rest => rfl, by decide⟩

/-- C9: the fence cleaning is a global substring replacement, not a
prefix/suffix strip: under a leading "```json" marker interior occurrences
of "```json" (and the trailing marker) are deleted too; under a leading
untagged "```" marker interior occurrences of "```" are deleted too; and a
text that does not start with "```" has no fence marker removed at all,
even when a trailing "```" is present. -/
theorem c9_global_replacement :
    (∀ a b : Str, btFree a → btFree b →
      cleanResultText (fenceJson ++ (a ++ (fenceJson ++ (b ++ fenceTicks))))
        = pyStrip (a ++ b))
    ∧ (∀ a b : Str, btFree a → btFree b →
        "json".toList.isPrefixOf (a ++ (fenceTicks ++ (b ++ fenceTicks))) = false →
        cleanResultText (fenceTicks ++ (a ++ (fenceTicks ++ (b ++ fenceTicks))))
          = pyStrip (a ++ b))
    ∧ (∀ content : Str, fenceTicks.isPrefixOf (pyStrip content) = false →
        cleanResultText content = pyStrip content) :=
  ⟨clean_tagged_double, clean_untagged_double, clean_nofence⟩

/-- Witness for C9: interior markers are deleted in both branches, and a
text with only a trailing fence is left untouched. -/
theorem c9_witness :
    cleanResultText (fenceJson ++ ("x ".toList ++ (fenceJson ++ (" y".toList ++ fenceTicks))))
        = pyStrip ("x ".toList ++ " y".toList)
    ∧ cleanResultText (fenceTicks ++ ("x ".toList ++ (fenceTicks ++ (" y".toList ++ fenceTicks))))
        = pyStrip ("x ".toList ++ " y".toList)
    ∧ cleanResultText ("body\n```".toList) = pyStrip ("body\n```".toList) :=
  ⟨c9_global_replacement.1 ("x ".toList) (" y".toList) (by decide) (by decide),
   c9_global_replacement.2.1 ("x ".toList) (" y".toList) (by decide) (by decide) (by decide),
   c9_global_replacement.2.2 ("body\n```".toList) (by decide)⟩

/-- C10: `extract_structured_data` performs a single completion attempt and
parses the raw content directly — no fence stripping, no retry, no
key-presence validation: a fenced response makes it raise a JSON decode
error, and a response missing schema keys is returned anyway. -/
theorem c10_extract_single_attempt :
    (∀ (responses : Nat → CompletionResult) (text : Str) (schema : Schema),
      (extract_structured_data responses text schema).1.length = 1)
    ∧ (∀ (responses : Nat → CompletionResult) (text : Str) (schema : Schema) (content : Str),
        responses 0 = CompletionResult.ok content → jsonLoads content = none →
        (extract_structured_data responses text schema).2
          = ExtractOutcome.raisedJSONDecodeError)
    ∧ (∀ (responses : Nat → CompletionResult) (text : Str) (schema : Schema)
        (content : Str) (v : JsonValue),
        responses 0 = CompletionResult.ok content → jsonLoads content = some v →
        (extract_structured_data responses text schema).2 = ExtractOutcome.returned v)
    ∧ jsonLoads rawFenced = none
    ∧ jsonLoads missingKeysRaw = some missingKeysObj
    ∧ validate_schema missingKeysObj simple_schema = false := by
  refine ⟨fun _ _ _ => rfl, ?_, ?_, rfl, rfl, rfl⟩
  · intro responses text schema content h0 hparse
    simp [extract_structured_data, h0, hparse]
  · intro responses text schema content v h0 hparse
    simp [extract_structured_data, h0, hparse]

/-- Witness for C10: the fenced response (valid JSON inside a fence) makes
`extract_structured_data` raise a decode error, while a constant oracle
returning key-deficient JSON is returned unvalidated. -/
theorem c10_witness :
    respFenced 0 = CompletionResult.ok rawFenced
    ∧ jsonLoads rawFenced = none
    ∧ (extract_structured_data respFenced ("t".toList) simple_schema).2
        = ExtractOutcome.raisedJSONDecodeError
    ∧ (extract_structured_data (fun _ => CompletionResult.ok missingKeysRaw)
        ("t".toList) simple_schema).2 = ExtractOutcome.returned missingKeysObj := by
  refine ⟨rfl, rfl, ?_, ?_⟩
  · exact c10_extract_single_attempt.2.1 respFenced ("t".toList) simple_schema rawFenced rfl rfl
  · exact c10_extract_single_attempt.2.2.1 (fun _ => CompletionResult.ok missingKeysRaw)
      ("t".toList) simple_schema missingKeysRaw missingKeysObj rfl rfl
